import Mathlib

/-!
Shallow embedding of `audio.go` from the go-openai fork: the audio
transcription/translation request builder (`audioMultipartForm`), the
dispatcher (`callAudioAPI`) and the response-format predicate
(`HasJSONResponse`), together with theorems checking the specification's
claims about them.

The multipart form builder (`formBuilder` interface) and the filesystem
(`os.Open`) are external collaborators of `audio.go`; they are modelled as
parameters whose operations may fail with an arbitrary Go error string.
Every side effect on the form (opening/closing the source file, writing a
file part, writing a text field, finalizing the writer) is recorded as an
event in a trace, so that the encoded form content and the resource
lifecycle are observable in theorems.
-/

set_option autoImplicit false

namespace Openai

/-- Go errors carry only their message string here. -/
abbrev GoErr := String

/-- Models the Go string type `AudioResponseFormat` (audio.go line 19). -/
abbrev AudioResponseFormat := String

/-- Constant `AudioResponseFormatJSON = "json"` (audio.go line 22). -/
def AudioResponseFormatJSON : AudioResponseFormat := "json"

/-- Constant `AudioResponseFormatSRT = "srt"` (audio.go line 23). -/
def AudioResponseFormatSRT : AudioResponseFormat := "srt"

/-- Constant `AudioResponseFormatVTT = "vtt"` (audio.go line 24). -/
def AudioResponseFormatVTT : AudioResponseFormat := "vtt"

/-- An opened file handle (`*os.File`), identified by the path it was opened from. -/
structure File where
  path : String
deriving DecidableEq

/-- Models the struct `AudioRequest` (audio.go lines 29-38).  The Go pointer
fields `FileBytes *[]byte` and `FileName *string` become `Option`s (nil =
`none`); `Temperature float32` is modelled as a rational number. -/
structure AudioRequest where
  Model : String := ""
  FilePath : String := ""
  FileBytes : Option (List UInt8) := none
  FileName : Option String := none
  Prompt : String := ""
  Temperature : Rat := 0
  Language : String := ""
  Format : AudioResponseFormat := ""

/-- Models the struct `AudioResponse` (audio.go lines 41-43): a single `Text`
field, JSON-tagged `text`. -/
structure AudioResponse where
  Text : String
deriving DecidableEq

/-- `HasJSONResponse` (audio.go lines 93-95): true iff the format is unset or `json`. -/
def AudioRequest.HasJSONResponse (r : AudioRequest) : Bool :=
  r.Format == "" || r.Format == AudioResponseFormatJSON

/-- Models `fmt.Sprintf("%.2f", t)` (audio.go line 154): sign, integer part,
a dot, and exactly two decimal digits.  The magnitude `|t| * 100 = a / d` is
rounded to the nearest integer `n`, ties to even — the rounding Go's
`strconv`/`fmt` applies when formatting a float with fixed precision. -/
def fmtF2 (t : Rat) : String :=
  let a : Nat := t.num.natAbs * 100
  let d : Nat := t.den
  let q : Nat := a / d
  let r : Nat := a % d
  let n : Nat := if d < 2 * r then q + 1 else if 2 * r < d then q else if q % 2 = 0 then q else q + 1
  (if t.num < 0 then "-" else "") ++ toString (n / 100) ++ "." ++
    String.mk [Nat.digitChar (n / 10 % 10), Nat.digitChar (n % 10)]

/-- Models Go `strings.Contains(s, ".")` (audio.go line 117): true iff the
string has a `.` character. -/
def containsDot (s : String) : Bool :=
  s.data.any fun ch => ch == '.'

/-- Observable events of one assembly run: file handle lifecycle and the
parts written to the multipart form, in order. -/
inductive FormEvent where
  | openedFile (path : String)
  | closedFile (path : String)
  | createdFormFile (field : String) (f : File)
  | createdFormFileFromBytes (field : String) (filename : String) (data : List UInt8)
  | wroteField (field : String) (value : String)
  | builderClosed
deriving DecidableEq

/-- Behaviour of a `formBuilder` (the external multipart writer interface):
each operation either succeeds (`none`) or fails with a Go error. -/
structure FormBuilderOps where
  createFormFile : String → File → Option GoErr
  createFormFileFromBytes : String → String → List UInt8 → Option GoErr
  writeField : String → String → Option GoErr
  close : Option GoErr

/-- One conditional `writeField` step of `audioMultipartForm` (the pattern of
audio.go lines 131-166): if `cond` holds, write the field, wrapping a failure
with `wrap`; otherwise skip.  Returns the error (if any) and the extended trace. -/
def stepField (b : FormBuilderOps) (cond : Bool) (name value wrap : String)
    (acc : List FormEvent) : Option GoErr × List FormEvent :=
  if cond then
    match b.writeField name value with
    | some e => (some (wrap ++ e), acc)
    | none => (none, acc ++ [FormEvent.wroteField name value])
  else (none, acc)

/-- The field-writing tail of `audioMultipartForm` (audio.go lines 131-169):
`model`, then conditionally `prompt`, `response_format`, `temperature`,
`language`, then `b.close()`.  Each failure short-circuits the rest. -/
def audioFormFields (b : FormBuilderOps) (request : AudioRequest)
    (acc : List FormEvent) : Option GoErr × List FormEvent :=
  let s1 := stepField b true "model" request.Model "writing model name: " acc
  match s1.1 with
  | some e => (some e, s1.2)
  | none =>
  let s2 := stepField b (request.Prompt != "") "prompt" request.Prompt "writing prompt: " s1.2
  match s2.1 with
  | some e => (some e, s2.2)
  | none =>
  let s3 := stepField b (request.Format != "") "response_format" request.Format
      "writing format: " s2.2
  match s3.1 with
  | some e => (some e, s3.2)
  | none =>
  let s4 := stepField b (request.Temperature != 0) "temperature" (fmtF2 request.Temperature)
      "writing temperature: " s3.2
  match s4.1 with
  | some e => (some e, s4.2)
  | none =>
  let s5 := stepField b (request.Language != "") "language" request.Language
      "writing language: " s4.2
  match s5.1 with
  | some e => (some e, s5.2)
  | none =>
  match b.close with
  | some e => (some e, s5.2)
  | none => (none, s5.2 ++ [FormEvent.builderClosed])

/-- Models `audioMultipartForm` (audio.go lines 99-170).  `fsOpen` models
`os.Open`.  The Go `defer f.Close()` (line 107) runs on every exit path of
the path branch, hence the `closedFile` event appended to every outcome of
that branch.  Returns the error (if any) and the event trace. -/
def audioMultipartForm (fsOpen : String → Except GoErr File)
    (request : AudioRequest) (b : FormBuilderOps) : Option GoErr × List FormEvent :=
  if request.FilePath != "" then
    match fsOpen request.FilePath with
    | Except.error e => (some ("opening audio file: " ++ e), [])
    | Except.ok f =>
      let res :=
        match b.createFormFile "file" f with
        | some e => (some ("creating form file: " ++ e), [FormEvent.openedFile request.FilePath])
        | none =>
          audioFormFields b request
            [FormEvent.openedFile request.FilePath, FormEvent.createdFormFile "file" f]
      (res.1, res.2 ++ [FormEvent.closedFile request.FilePath])
  else
    match request.FileBytes with
    | some data =>
      match request.FileName with
      | none => (some "FileName with correct extension is required while FileBytes is used", [])
      | some fn =>
        if containsDot fn then
          match b.createFormFileFromBytes "file" fn data with
          | some e => (some ("creating form bytes: " ++ e), [])
          | none => audioFormFields b request [FormEvent.createdFormFileFromBytes "file" fn data]
        else (some "FileName with correct extension is required while FileBytes is used", [])
    | none => (some "either FilePath or FileBytes should be specified", [])

/-- Environment of one `callAudioAPI` call: the external collaborators of
audio.go.  `jsonDecodeAudio` models `encoding/json` decoding of the response
body into the `AudioResponse` struct (its `text` field), as performed by
`Client.sendRequest`; `newRequestErr` models the outcome of
`http.NewRequestWithContext`; `transportErr` and `responseBody` model the
HTTP round trip inside `Client.sendRequest`. -/
structure ClientEnv where
  fsOpen : String → Except GoErr File
  builder : FormBuilderOps
  baseURL : String
  newRequestErr : Option GoErr := none
  transportErr : Option GoErr := none
  responseBody : String := ""
  jsonDecodeAudio : String → Except GoErr AudioResponse

/-- Modelled from the spec: `Client.sendRequest` (not under src/) with the
whole `AudioResponse` struct as decode target — used when the format is
unset/`json`.  Per spec section 4.3, the response body is treated as a JSON
object with a single `text` field; a transport failure or a decode failure is
returned as an error. -/
def sendRequestToStruct (c : ClientEnv) : Except GoErr AudioResponse :=
  match c.transportErr with
  | some e => Except.error e
  | none => c.jsonDecodeAudio c.responseBody

/-- Modelled from the spec: `Client.sendRequest` (not under src/) with the
`Text` field as decode target — used for `srt`/`vtt`.  Per spec section 4.3,
the entire response body is taken verbatim as the result text, with no
parsing, so only a transport failure can error. -/
def sendRequestToTextField (c : ClientEnv) : Except GoErr String :=
  match c.transportErr with
  | some e => Except.error e
  | none => Except.ok c.responseBody

/-- Models `Client.fullURL`: base URL plus the suffix. -/
def fullURL (c : ClientEnv) (suffix : String) : String :=
  c.baseURL ++ suffix

/-- Everything observable about one `callAudioAPI` call: the returned
response and error, the form trace, and whether the HTTP request got built
(`http.NewRequestWithContext` succeeded) and sent over the transport. -/
structure CallOutcome where
  response : AudioResponse
  err : Option GoErr
  formTrace : List FormEvent
  httpRequestBuilt : Bool
  httpRequestSent : Bool
  requestURL : Option String := none
deriving DecidableEq

/-- Models `callAudioAPI` (audio.go lines 62-90): assemble the multipart
form; on failure return a zero `AudioResponse` and the error without touching
HTTP.  Otherwise build the POST request to `/audio/{endpointSuffix}` and send
it, decoding per `HasJSONResponse`: into the struct (JSON) or into the `Text`
field (verbatim body). -/
def callAudioAPI (c : ClientEnv) (request : AudioRequest) (endpointSuffix : String) :
    CallOutcome :=
  let fr := audioMultipartForm c.fsOpen request c.builder
  match fr.1 with
  | some e =>
      { response := ⟨""⟩, err := some e, formTrace := fr.2
        httpRequestBuilt := false, httpRequestSent := false }
  | none =>
    let url := fullURL c ("/audio/" ++ endpointSuffix)
    match c.newRequestErr with
    | some e =>
        { response := ⟨""⟩, err := some e, formTrace := fr.2
          httpRequestBuilt := false, httpRequestSent := false }
    | none =>
      if request.HasJSONResponse then
        match sendRequestToStruct c with
        | Except.error e =>
            { response := ⟨""⟩, err := some e, formTrace := fr.2
              httpRequestBuilt := true, httpRequestSent := true, requestURL := some url }
        | Except.ok resp =>
            { response := resp, err := none, formTrace := fr.2
              httpRequestBuilt := true, httpRequestSent := true, requestURL := some url }
      else
        match sendRequestToTextField c with
        | Except.error e =>
            { response := ⟨""⟩, err := some e, formTrace := fr.2
              httpRequestBuilt := true, httpRequestSent := true, requestURL := some url }
        | Except.ok txt =>
            { response := ⟨txt⟩, err := none, formTrace := fr.2
              httpRequestBuilt := true, httpRequestSent := true, requestURL := some url }

/-- Models `CreateTranscription` (audio.go lines 46-51). -/
def CreateTranscription (c : ClientEnv) (request : AudioRequest) : CallOutcome :=
  callAudioAPI c request "transcriptions"

/-- Models `CreateTranslation` (audio.go lines 54-59). -/
def CreateTranslation (c : ClientEnv) (request : AudioRequest) : CallOutcome :=
  callAudioAPI c request "translations"

/-- Projects a trace to the names of the form parts written, in order:
file parts (`file`) and text fields. -/
def formFieldNames (tr : List FormEvent) : List String :=
  tr.filterMap fun ev =>
    match ev with
    | FormEvent.createdFormFile n _ => some n
    | FormEvent.createdFormFileFromBytes n _ _ => some n
    | FormEvent.wroteField n _ => some n
    | _ => none

/-! Concrete builders, filesystems and environments used in witness checks. -/

def okBuilder : FormBuilderOps :=
  { createFormFile := fun _ _ => none
    createFormFileFromBytes := fun _ _ _ => none
    writeField := fun _ _ => none
    close := none }

def okFs : String → Except GoErr File := fun p => Except.ok ⟨p⟩

def echoDecode : String → Except GoErr AudioResponse := fun s => Except.ok ⟨s⟩

def okEnv : ClientEnv :=
  { fsOpen := okFs, builder := okBuilder, baseURL := "https://api.example.com/v1"
    jsonDecodeAudio := echoDecode }

def reqC1 : AudioRequest := { Model := "whisper-1", FilePath := "a.wav", Format := "srt" }

def envC1 : ClientEnv := { okEnv with responseBody := "\x7b\"text\":\"hi\"\x7d" }

def reqT0 : AudioRequest := { Model := "whisper-1", FilePath := "a.wav" }

def reqT : AudioRequest :=
  { Model := "whisper-1", FilePath := "a.wav", Temperature := mkRat 1 2 }

def reqC5 : AudioRequest :=
  { Model := "whisper-1", FilePath := "a.wav", Prompt := "p", Format := "srt"
    Temperature := mkRat 1 2, Language := "en" }

def failCloseBuilder : FormBuilderOps := { okBuilder with close := some "close failed" }

def envC6 : ClientEnv := { okEnv with builder := failCloseBuilder }

def reqC7 : AudioRequest :=
  { Model := "whisper-1", FilePath := "a.wav", FileBytes := some [9]
    FileName := some "b.mp3" }

def failFileBuilder : FormBuilderOps :=
  { okBuilder with createFormFile := fun _ _ => some "disk full" }

def reqC10 : AudioRequest :=
  { Model := "whisper-1", FilePath := "a.wav", Format := "verbose_json" }

def envC10 : ClientEnv := { okEnv with responseBody := "plain text body" }

theorem stepField_memEq {b : FormBuilderOps} {c : Bool} {n v w : String}
    {acc : List FormEvent} {p : Option GoErr × List FormEvent} {ev : FormEvent}
    (hs : stepField b c n v w acc = p) (h : ev ∈ p.2) :
    ev ∈ acc ∨ (c = true ∧ ev = FormEvent.wroteField n v) := by
  subst hs
  unfold stepField at h
  cases c with
  | false => simp at h; exact Or.inl h
  | true =>
    rw [if_pos rfl] at h
    cases hw : b.writeField n v with
    | some e => rw [hw] at h; exact Or.inl h
    | none =>
      rw [hw] at h
      simp only [List.mem_append, List.mem_singleton] at h
      rcases h with h | h
      · exact Or.inl h
      · exact Or.inr ⟨rfl, h⟩

theorem stepField_noneEq {b : FormBuilderOps} {c : Bool} {n v w : String}
    {acc tr : List FormEvent} {e : Option GoErr}
    (hs : stepField b c n v w acc = (e, tr)) (he : e = none) :
    tr = acc ++ (if c then [FormEvent.wroteField n v] else []) := by
  subst he
  unfold stepField at hs
  cases c with
  | false => simp at hs ⊢; exact hs.symm
  | true =>
    rw [if_pos rfl] at hs
    cases hw : b.writeField n v with
    | some e2 =>
      rw [hw] at hs
      exact absurd (congrArg Prod.fst hs).symm (by simp)
    | none => rw [hw] at hs; simp at hs ⊢; exact hs.symm

theorem mem_audioFormFields {b : FormBuilderOps} {req : AudioRequest}
    {acc : List FormEvent} {ev : FormEvent} (h : ev ∈ (audioFormFields b req acc).2) :
    ev ∈ acc ∨ ev = FormEvent.wroteField "model" req.Model
      ∨ ((req.Prompt != "") = true ∧ ev = FormEvent.wroteField "prompt" req.Prompt)
      ∨ ((req.Format != "") = true ∧ ev = FormEvent.wroteField "response_format" req.Format)
      ∨ ((req.Temperature != 0) = true
          ∧ ev = FormEvent.wroteField "temperature" (fmtF2 req.Temperature))
      ∨ ((req.Language != "") = true ∧ ev = FormEvent.wroteField "language" req.Language)
      ∨ ev = FormEvent.builderClosed := by
  unfold audioFormFields at h
  simp only [] at h
  rcases hs1 : stepField b true "model" req.Model "writing model name: " acc with ⟨e1, t1⟩
  rw [hs1] at h
  cases e1 with
  | some e =>
    dsimp only at h
    rcases stepField_memEq hs1 h with h | ⟨_, rfl⟩
    · exact Or.inl h
    · tauto
  | none =>
  dsimp only at h
  rcases hs2 : stepField b (req.Prompt != "") "prompt" req.Prompt "writing prompt: " t1 with ⟨e2, t2⟩
  rw [hs2] at h
  cases e2 with
  | some e =>
    dsimp only at h
    rcases stepField_memEq hs2 h with h | ⟨hc, rfl⟩
    · rcases stepField_memEq hs1 h with h | ⟨_, rfl⟩ <;> tauto
    · tauto
  | none =>
  dsimp only at h
  rcases hs3 : stepField b (req.Format != "") "response_format" req.Format "writing format: " t2 with ⟨e3, t3⟩
  rw [hs3] at h
  cases e3 with
  | some e =>
    dsimp only at h
    rcases stepField_memEq hs3 h with h | ⟨hc, rfl⟩
    · rcases stepField_memEq hs2 h with h | ⟨hc, rfl⟩
      · rcases stepField_memEq hs1 h with h | ⟨_, rfl⟩ <;> tauto
      · tauto
    · tauto
  | none =>
  dsimp only at h
  rcases hs4 : stepField b (req.Temperature != 0) "temperature" (fmtF2 req.Temperature) "writing temperature: " t3 with ⟨e4, t4⟩
  rw [hs4] at h
  cases e4 with
  | some e =>
    dsimp only at h
    rcases stepField_memEq hs4 h with h | ⟨hc, rfl⟩
    · rcases stepField_memEq hs3 h with h | ⟨hc, rfl⟩
      · rcases stepField_memEq hs2 h with h | ⟨hc, rfl⟩
        · rcases stepField_memEq hs1 h with h | ⟨_, rfl⟩ <;> tauto
        · tauto
      · tauto
    · tauto
  | none =>
  dsimp only at h
  rcases hs5 : stepField b (req.Language != "") "language" req.Language "writing language: " t4 with ⟨e5, t5⟩
  rw [hs5] at h
  cases e5 with
  | some e =>
    dsimp only at h
    rcases stepField_memEq hs5 h with h | ⟨hc, rfl⟩
    · rcases stepField_memEq hs4 h with h | ⟨hc, rfl⟩
      · rcases stepField_memEq hs3 h with h | ⟨hc, rfl⟩
        · rcases stepField_memEq hs2 h with h | ⟨hc, rfl⟩
          · rcases stepField_memEq hs1 h with h | ⟨_, rfl⟩ <;> tauto
          · tauto
        · tauto
      · tauto
    · tauto
  | none =>
  dsimp only at h
  cases hc : b.close with
  | some e =>
    rw [hc] at h
    dsimp only at h
    rcases stepField_memEq hs5 h with h | ⟨hcc, rfl⟩
    · rcases stepField_memEq hs4 h with h | ⟨hcc, rfl⟩
      · rcases stepField_memEq hs3 h with h | ⟨hcc, rfl⟩
        · rcases stepField_memEq hs2 h with h | ⟨hcc, rfl⟩
          · rcases stepField_memEq hs1 h with h | ⟨_, rfl⟩ <;> tauto
          · tauto
        · tauto
      · tauto
    · tauto
  | none =>
    rw [hc] at h
    dsimp only at h
    simp only [List.mem_append, List.mem_singleton] at h
    rcases h with h | rfl
    · rcases stepField_memEq hs5 h with h | ⟨hcc, rfl⟩
      · rcases stepField_memEq hs4 h with h | ⟨hcc, rfl⟩
        · rcases stepField_memEq hs3 h with h | ⟨hcc, rfl⟩
          · rcases stepField_memEq hs2 h with h | ⟨hcc, rfl⟩
            · rcases stepField_memEq hs1 h with h | ⟨_, rfl⟩ <;> tauto
            · tauto
          · tauto
        · tauto
      · tauto
    · tauto

theorem audioFormFields_none {b : FormBuilderOps} {req : AudioRequest} {acc : List FormEvent}
    (h : (audioFormFields b req acc).1 = none) :
    (audioFormFields b req acc).2 = acc
      ++ [FormEvent.wroteField "model" req.Model]
      ++ (if req.Prompt != "" then [FormEvent.wroteField "prompt" req.Prompt] else [])
      ++ (if req.Format != "" then [FormEvent.wroteField "response_format" req.Format] else [])
      ++ (if req.Temperature != 0 then
            [FormEvent.wroteField "temperature" (fmtF2 req.Temperature)] else [])
      ++ (if req.Language != "" then [FormEvent.wroteField "language" req.Language] else [])
      ++ [FormEvent.builderClosed] := by
  unfold audioFormFields at h ⊢
  simp only [] at h ⊢
  rcases hs1 : stepField b true "model" req.Model "writing model name: " acc with ⟨e1, t1⟩
  rw [hs1] at h
  cases e1 with
  | some e => dsimp only at h; exact absurd h (by simp)
  | none =>
  dsimp only at h ⊢
  rcases hs2 : stepField b (req.Prompt != "") "prompt" req.Prompt "writing prompt: " t1 with ⟨e2, t2⟩
  rw [hs2] at h
  cases e2 with
  | some e => dsimp only at h; exact absurd h (by simp)
  | none =>
  dsimp only at h ⊢
  rcases hs3 : stepField b (req.Format != "") "response_format" req.Format "writing format: " t2 with ⟨e3, t3⟩
  rw [hs3] at h
  cases e3 with
  | some e => dsimp only at h; exact absurd h (by simp)
  | none =>
  dsimp only at h ⊢
  rcases hs4 : stepField b (req.Temperature != 0) "temperature" (fmtF2 req.Temperature) "writing temperature: " t3 with ⟨e4, t4⟩
  rw [hs4] at h
  cases e4 with
  | some e => dsimp only at h; exact absurd h (by simp)
  | none =>
  dsimp only at h ⊢
  rcases hs5 : stepField b (req.Language != "") "language" req.Language "writing language: " t4 with ⟨e5, t5⟩
  rw [hs5] at h
  cases e5 with
  | some e => dsimp only at h; exact absurd h (by simp)
  | none =>
  dsimp only at h ⊢
  cases hc : b.close with
  | some e => rw [hc] at h; dsimp only at h; exact absurd h (by simp)
  | none =>
    dsimp only
    have h1 := stepField_noneEq hs1 rfl
    have h2 := stepField_noneEq hs2 rfl
    have h3 := stepField_noneEq hs3 rfl
    have h4 := stepField_noneEq hs4 rfl
    have h5 := stepField_noneEq hs5 rfl
    subst h1 h2 h3 h4 h5
    simp [List.append_assoc]

theorem audioMultipartForm_path_eq {fsOpen : String → Except GoErr File}
    {req : AudioRequest} {b : FormBuilderOps} {f : File}
    (hp : (req.FilePath != "") = true) (ho : fsOpen req.FilePath = Except.ok f)
    (hc : b.createFormFile "file" f = none) :
    audioMultipartForm fsOpen req b =
      ((audioFormFields b req
          [FormEvent.openedFile req.FilePath, FormEvent.createdFormFile "file" f]).1,
       (audioFormFields b req
          [FormEvent.openedFile req.FilePath, FormEvent.createdFormFile "file" f]).2
         ++ [FormEvent.closedFile req.FilePath]) := by
  unfold audioMultipartForm
  rw [if_pos hp, ho]
  dsimp only
  rw [hc]

theorem audioMultipartForm_bytes_eq {fsOpen : String → Except GoErr File}
    {req : AudioRequest} {b : FormBuilderOps} {data : List UInt8} {fn : String}
    (hp : (req.FilePath != "") = false) (hb : req.FileBytes = some data)
    (hn : req.FileName = some fn) (hdot : containsDot fn = true)
    (hc : b.createFormFileFromBytes "file" fn data = none) :
    audioMultipartForm fsOpen req b =
      audioFormFields b req [FormEvent.createdFormFileFromBytes "file" fn data] := by
  unfold audioMultipartForm
  rw [if_neg (by simp [hp]), hb, hn]
  dsimp only
  rw [if_pos hdot, hc]

theorem audioMultipartForm_none_inv {fsOpen : String → Except GoErr File}
    {req : AudioRequest} {b : FormBuilderOps}
    (h : (audioMultipartForm fsOpen req b).1 = none) :
    ((req.FilePath != "") = true
      ∧ ∃ f, fsOpen req.FilePath = Except.ok f ∧ b.createFormFile "file" f = none)
    ∨ ((req.FilePath != "") = false
      ∧ ∃ data fn, req.FileBytes = some data ∧ req.FileName = some fn
          ∧ containsDot fn = true ∧ b.createFormFileFromBytes "file" fn data = none) := by
  unfold audioMultipartForm at h
  by_cases hp : (req.FilePath != "") = true
  · rw [if_pos hp] at h
    cases ho : fsOpen req.FilePath with
    | error e => rw [ho] at h; exact absurd h (by simp)
    | ok f =>
      rw [ho] at h
      dsimp only at h
      cases hc : b.createFormFile "file" f with
      | some e => rw [hc] at h; exact absurd h (by simp)
      | none => exact Or.inl ⟨hp, f, rfl, hc⟩
  · have hp' : (req.FilePath != "") = false := by simpa using hp
    rw [if_neg (by simp [hp'])] at h
    cases hb : req.FileBytes with
    | none => rw [hb] at h; exact absurd h (by simp)
    | some data =>
      rw [hb] at h
      cases hn : req.FileName with
      | none => rw [hn] at h; exact absurd h (by simp)
      | some fn =>
        rw [hn] at h
        dsimp only at h
        by_cases hdot : containsDot fn = true
        · rw [if_pos hdot] at h
          cases hc : b.createFormFileFromBytes "file" fn data with
          | some e => rw [hc] at h; exact absurd h (by simp)
          | none => exact Or.inr ⟨hp', data, fn, rfl, rfl, hdot, hc⟩
        · rw [if_neg hdot] at h; exact absurd h (by simp)

theorem mem_audioMultipartForm {fsOpen : String → Except GoErr File}
    {req : AudioRequest} {b : FormBuilderOps} {ev : FormEvent}
    (h : ev ∈ (audioMultipartForm fsOpen req b).2) :
    ((req.FilePath != "") = true
        ∧ (ev = FormEvent.openedFile req.FilePath ∨ ev = FormEvent.closedFile req.FilePath
            ∨ ∃ f, fsOpen req.FilePath = Except.ok f ∧ ev = FormEvent.createdFormFile "file" f))
      ∨ ((req.FilePath != "") = false
        ∧ ∃ data fn, req.FileBytes = some data ∧ req.FileName = some fn
            ∧ ev = FormEvent.createdFormFileFromBytes "file" fn data)
      ∨ ev = FormEvent.wroteField "model" req.Model
      ∨ ((req.Prompt != "") = true ∧ ev = FormEvent.wroteField "prompt" req.Prompt)
      ∨ ((req.Format != "") = true ∧ ev = FormEvent.wroteField "response_format" req.Format)
      ∨ ((req.Temperature != 0) = true
          ∧ ev = FormEvent.wroteField "temperature" (fmtF2 req.Temperature))
      ∨ ((req.Language != "") = true ∧ ev = FormEvent.wroteField "language" req.Language)
      ∨ ev = FormEvent.builderClosed := by
  unfold audioMultipartForm at h
  by_cases hp : (req.FilePath != "") = true
  · rw [if_pos hp] at h
    cases ho : fsOpen req.FilePath with
    | error e => rw [ho] at h; exact absurd h (by simp)
    | ok f =>
      rw [ho] at h
      dsimp only at h
      simp only [List.mem_append, List.mem_singleton] at h
      rcases h with h | rfl
      · cases hc : b.createFormFile "file" f with
        | some e =>
          rw [hc] at h
          simp only [List.mem_singleton] at h
          exact Or.inl ⟨hp, Or.inl h⟩
        | none =>
          rw [hc] at h
          rcases mem_audioFormFields h with h | h | h | h | h | h | h
          · simp only [List.mem_cons, List.mem_singleton] at h
            rcases h with rfl | rfl | h
            · exact Or.inl ⟨hp, Or.inl rfl⟩
            · exact Or.inl ⟨hp, Or.inr (Or.inr ⟨f, rfl, rfl⟩)⟩
            · exact absurd h (by simp)
          all_goals tauto
      · exact Or.inl ⟨hp, Or.inr (Or.inl rfl)⟩
  · have hp' : (req.FilePath != "") = false := by simpa using hp
    rw [if_neg (by simp [hp'])] at h
    cases hb : req.FileBytes with
    | none => rw [hb] at h; exact absurd h (by simp)
    | some data =>
      rw [hb] at h
      cases hn : req.FileName with
      | none => rw [hn] at h; exact absurd h (by simp)
      | some fn =>
        rw [hn] at h
        dsimp only at h
        by_cases hdot : containsDot fn = true
        · rw [if_pos hdot] at h
          cases hc : b.createFormFileFromBytes "file" fn data with
          | some e => rw [hc] at h; exact absurd h (by simp)
          | none =>
            rw [hc] at h
            rcases mem_audioFormFields h with h | h | h | h | h | h | h
            · simp only [List.mem_singleton] at h
              subst h
              exact Or.inr (Or.inl ⟨hp', data, fn, rfl, rfl, rfl⟩)
            all_goals tauto
        · rw [if_neg hdot] at h; exact absurd h (by simp)

theorem stepField_mem_acc {b : FormBuilderOps} {c : Bool} {n v w : String}
    {acc : List FormEvent} {ev : FormEvent} (h : ev ∈ acc) :
    ev ∈ (stepField b c n v w acc).2 := by
  unfold stepField
  cases c with
  | false => simpa using h
  | true =>
    rw [if_pos rfl]
    cases hw : b.writeField n v with
    | some e => exact h
    | none => exact List.mem_append_left _ h

theorem audioFormFields_mem_acc {b : FormBuilderOps} {req : AudioRequest}
    {acc : List FormEvent} {ev : FormEvent} (h : ev ∈ acc) :
    ev ∈ (audioFormFields b req acc).2 := by
  unfold audioFormFields
  simp only []
  rcases hs1 : stepField b true "model" req.Model "writing model name: " acc with ⟨e1, t1⟩
  have h1 : ev ∈ t1 := by
    have := stepField_mem_acc (b := b) (c := true) (n := "model") (v := req.Model)
      (w := "writing model name: ") h
    rw [hs1] at this; exact this
  cases e1 with
  | some e => exact h1
  | none =>
  dsimp only
  rcases hs2 : stepField b (req.Prompt != "") "prompt" req.Prompt "writing prompt: " t1 with ⟨e2, t2⟩
  have h2 : ev ∈ t2 := by
    have := stepField_mem_acc (b := b) (c := (req.Prompt != "")) (n := "prompt")
      (v := req.Prompt) (w := "writing prompt: ") h1
    rw [hs2] at this; exact this
  cases e2 with
  | some e => exact h2
  | none =>
  dsimp only
  rcases hs3 : stepField b (req.Format != "") "response_format" req.Format "writing format: " t2 with ⟨e3, t3⟩
  have h3 : ev ∈ t3 := by
    have := stepField_mem_acc (b := b) (c := (req.Format != "")) (n := "response_format")
      (v := req.Format) (w := "writing format: ") h2
    rw [hs3] at this; exact this
  cases e3 with
  | some e => exact h3
  | none =>
  dsimp only
  rcases hs4 : stepField b (req.Temperature != 0) "temperature" (fmtF2 req.Temperature) "writing temperature: " t3 with ⟨e4, t4⟩
  have h4 : ev ∈ t4 := by
    have := stepField_mem_acc (b := b) (c := (req.Temperature != 0)) (n := "temperature")
      (v := fmtF2 req.Temperature) (w := "writing temperature: ") h3
    rw [hs4] at this; exact this
  cases e4 with
  | some e => exact h4
  | none =>
  dsimp only
  rcases hs5 : stepField b (req.Language != "") "language" req.Language "writing language: " t4 with ⟨e5, t5⟩
  have h5 : ev ∈ t5 := by
    have := stepField_mem_acc (b := b) (c := (req.Language != "")) (n := "language")
      (v := req.Language) (w := "writing language: ") h4
    rw [hs5] at this; exact this
  cases e5 with
  | some e => exact h5
  | none =>
  dsimp only
  cases hc : b.close with
  | some e => exact h5
  | none => exact List.mem_append_left _ h5

theorem builderClosed_audioFormFields {b : FormBuilderOps} {req : AudioRequest}
    {acc : List FormEvent} (h : FormEvent.builderClosed ∈ (audioFormFields b req acc).2)
    (hacc : FormEvent.builderClosed ∉ acc) : (audioFormFields b req acc).1 = none := by
  unfold audioFormFields at h ⊢
  simp only [] at h ⊢
  rcases hs1 : stepField b true "model" req.Model "writing model name: " acc with ⟨e1, t1⟩
  rw [hs1] at h
  have hn1 : FormEvent.builderClosed ∉ t1 := by
    intro hm
    rcases stepField_memEq hs1 hm with hm | ⟨_, hm⟩
    · exact hacc hm
    · exact FormEvent.noConfusion hm
  cases e1 with
  | some e => exact absurd h hn1
  | none =>
  dsimp only at h ⊢
  rcases hs2 : stepField b (req.Prompt != "") "prompt" req.Prompt "writing prompt: " t1 with ⟨e2, t2⟩
  rw [hs2] at h
  have hn2 : FormEvent.builderClosed ∉ t2 := by
    intro hm
    rcases stepField_memEq hs2 hm with hm | ⟨_, hm⟩
    · exact hn1 hm
    · exact FormEvent.noConfusion hm
  cases e2 with
  | some e => exact absurd h hn2
  | none =>
  dsimp only at h ⊢
  rcases hs3 : stepField b (req.Format != "") "response_format" req.Format "writing format: " t2 with ⟨e3, t3⟩
  rw [hs3] at h
  have hn3 : FormEvent.builderClosed ∉ t3 := by
    intro hm
    rcases stepField_memEq hs3 hm with hm | ⟨_, hm⟩
    · exact hn2 hm
    · exact FormEvent.noConfusion hm
  cases e3 with
  | some e => exact absurd h hn3
  | none =>
  dsimp only at h ⊢
  rcases hs4 : stepField b (req.Temperature != 0) "temperature" (fmtF2 req.Temperature) "writing temperature: " t3 with ⟨e4, t4⟩
  rw [hs4] at h
  have hn4 : FormEvent.builderClosed ∉ t4 := by
    intro hm
    rcases stepField_memEq hs4 hm with hm | ⟨_, hm⟩
    · exact hn3 hm
    · exact FormEvent.noConfusion hm
  cases e4 with
  | some e => exact absurd h hn4
  | none =>
  dsimp only at h ⊢
  rcases hs5 : stepField b (req.Language != "") "language" req.Language "writing language: " t4 with ⟨e5, t5⟩
  rw [hs5] at h
  have hn5 : FormEvent.builderClosed ∉ t5 := by
    intro hm
    rcases stepField_memEq hs5 hm with hm | ⟨_, hm⟩
    · exact hn4 hm
    · exact FormEvent.noConfusion hm
  cases e5 with
  | some e => exact absurd h hn5
  | none =>
  dsimp only at h ⊢
  cases hc : b.close with
  | some e => rw [hc] at h; exact absurd h hn5
  | none => rfl

theorem builderClosed_audioMultipartForm {fsOpen : String → Except GoErr File}
    {req : AudioRequest} {b : FormBuilderOps}
    (h : FormEvent.builderClosed ∈ (audioMultipartForm fsOpen req b).2) :
    (audioMultipartForm fsOpen req b).1 = none := by
  unfold audioMultipartForm at h ⊢
  by_cases hp : (req.FilePath != "") = true
  · rw [if_pos hp] at h ⊢
    cases ho : fsOpen req.FilePath with
    | error e => rw [ho] at h; exact absurd h (by simp)
    | ok f =>
      rw [ho] at h
      dsimp only at h ⊢
      simp only [List.mem_append, List.mem_singleton] at h
      rcases h with h | h
      · cases hc : b.createFormFile "file" f with
        | some e =>
          rw [hc] at h
          simp only [List.mem_singleton] at h
          exact FormEvent.noConfusion h
        | none =>
          rw [hc] at h
          exact builderClosed_audioFormFields h (by simp)
      · exact FormEvent.noConfusion h
  · have hp' : (req.FilePath != "") = false := by simpa using hp
    rw [if_neg (by simp [hp'])] at h ⊢
    cases hb : req.FileBytes with
    | none => rw [hb] at h; exact absurd h (by simp)
    | some data =>
      rw [hb] at h
      cases hn : req.FileName with
      | none => rw [hn] at h; exact absurd h (by simp)
      | some fn =>
        rw [hn] at h
        dsimp only at h ⊢
        by_cases hdot : containsDot fn = true
        · rw [if_pos hdot] at h ⊢
          cases hc : b.createFormFileFromBytes "file" fn data with
          | some e => rw [hc] at h; exact absurd h (by simp)
          | none =>
            rw [hc] at h
            exact builderClosed_audioFormFields h (by simp)
        · rw [if_neg hdot] at h; exact absurd h (by simp)

theorem digitChar_isDigit {d : Nat} (h : d < 10) : (Nat.digitChar d).isDigit = true := by
  interval_cases d <;> rfl

theorem fmtF2_shape (t : Rat) :
    ∃ pre d1 d2, fmtF2 t = pre ++ "." ++ String.mk [d1, d2]
      ∧ d1.isDigit = true ∧ d2.isDigit = true :=
  ⟨_, _, _, rfl, digitChar_isDigit (Nat.mod_lt _ (by norm_num)),
    digitChar_isDigit (Nat.mod_lt _ (by norm_num))⟩

/-- C1: with format unset or `json` the dispatcher decodes the response body as
a JSON object with a `text` field into the result; with `srt`/`vtt` the whole
body is taken verbatim as the result text, with no JSON parsing. -/
theorem c1_response_decoding (c : ClientEnv) (req : AudioRequest) (sfx : String)
    (hform : (audioMultipartForm c.fsOpen req c.builder).1 = none)
    (hreq : c.newRequestErr = none) (ht : c.transportErr = none) :
    ((req.Format = "" ∨ req.Format = AudioResponseFormatJSON) →
      match c.jsonDecodeAudio c.responseBody with
      | Except.ok resp =>
          (callAudioAPI c req sfx).response = resp ∧ (callAudioAPI c req sfx).err = none
      | Except.error e =>
          (callAudioAPI c req sfx).response = ⟨""⟩ ∧ (callAudioAPI c req sfx).err = some e)
    ∧ ((req.Format = AudioResponseFormatSRT ∨ req.Format = AudioResponseFormatVTT) →
      (callAudioAPI c req sfx).response.Text = c.responseBody
        ∧ (callAudioAPI c req sfx).err = none) := by
  constructor
  · intro hf
    have hj : req.HasJSONResponse = true := by
      rcases hf with hf | hf <;>
        simp [AudioRequest.HasJSONResponse, hf, AudioResponseFormatJSON]
    unfold callAudioAPI sendRequestToStruct
    simp only [hform, hreq, ht, hj]
    cases hd : c.jsonDecodeAudio c.responseBody with
    | ok resp => exact ⟨rfl, rfl⟩
    | error e => exact ⟨rfl, rfl⟩
  · intro hf
    have hj : req.HasJSONResponse = false := by
      rcases hf with hf | hf <;>
        simp [AudioRequest.HasJSONResponse, hf, AudioResponseFormatJSON,
          AudioResponseFormatSRT, AudioResponseFormatVTT]
    unfold callAudioAPI sendRequestToTextField
    simp only [hform, hreq, ht, hj]
    exact ⟨rfl, rfl⟩

theorem c1_response_decoding_witness :
    (audioMultipartForm envC1.fsOpen reqC1 envC1.builder).1 = none
      ∧ (callAudioAPI envC1 reqC1 "transcriptions").response.Text = "\x7b\"text\":\"hi\"\x7d"
      ∧ (callAudioAPI envC1 reqC1 "transcriptions").err = none := by
  refine ⟨by decide, ?_⟩
  have h := (c1_response_decoding envC1 reqC1 "transcriptions" (by decide) rfl rfl).2
    (Or.inl rfl)
  exact h

/-- C2 counterexample: a request with no input source fails, but the error
message is "either FilePath or FileBytes should be specified", not
"either path or bytes should be specified" as the claim states. -/
theorem c2_message_counterexample :
    (audioMultipartForm okFs { Model := "whisper-1" } okBuilder).1
        = some "either FilePath or FileBytes should be specified"
      ∧ (audioMultipartForm okFs { Model := "whisper-1" } okBuilder).1
        ≠ some "either path or bytes should be specified" := by
  exact ⟨by decide, by decide⟩

/-- C2 (amended): with neither input variant populated, assembly fails with
the validation error "either FilePath or FileBytes should be specified",
nothing is written to the form, and no HTTP request is constructed or sent. -/
theorem c2_no_input_source (c : ClientEnv) (req : AudioRequest) (sfx : String)
    (hp : req.FilePath = "") (hb : req.FileBytes = none) :
    audioMultipartForm c.fsOpen req c.builder
        = (some "either FilePath or FileBytes should be specified", [])
      ∧ (callAudioAPI c req sfx).err = some "either FilePath or FileBytes should be specified"
      ∧ (callAudioAPI c req sfx).response = ⟨""⟩
      ∧ (callAudioAPI c req sfx).httpRequestBuilt = false
      ∧ (callAudioAPI c req sfx).httpRequestSent = false := by
  have hform : audioMultipartForm c.fsOpen req c.builder
      = (some "either FilePath or FileBytes should be specified", []) := by
    unfold audioMultipartForm
    rw [if_neg (by simp [hp]), hb]
  refine ⟨hform, ?_, ?_, ?_, ?_⟩ <;>
    · unfold callAudioAPI
      simp only [hform]

theorem c2_no_input_source_witness :
    ({ Model := "whisper-1" } : AudioRequest).FilePath = ""
      ∧ ({ Model := "whisper-1" } : AudioRequest).FileBytes = none
      ∧ (callAudioAPI okEnv { Model := "whisper-1" } "transcriptions").err
          = some "either FilePath or FileBytes should be specified"
      ∧ (callAudioAPI okEnv { Model := "whisper-1" } "transcriptions").httpRequestSent = false := by
  refine ⟨rfl, rfl, ?_, ?_⟩
  · exact (c2_no_input_source okEnv { Model := "whisper-1" } "transcriptions" rfl rfl).2.1
  · exact (c2_no_input_source okEnv { Model := "whisper-1" } "transcriptions" rfl rfl).2.2.2.2

/-- C3: bytes variant with a FileName lacking a dot fails with the validation
error before anything is written to the form (empty trace). -/
theorem c3_filename_without_extension (fsOpen : String → Except GoErr File)
    (b : FormBuilderOps) (req : AudioRequest) (data : List UInt8) (fn : String)
    (hp : req.FilePath = "") (hb : req.FileBytes = some data)
    (hn : req.FileName = some fn) (hdot : containsDot fn = false) :
    audioMultipartForm fsOpen req b
      = (some "FileName with correct extension is required while FileBytes is used", []) := by
  unfold audioMultipartForm
  rw [if_neg (by simp [hp]), hb, hn]
  dsimp only
  rw [if_neg (by simp [hdot])]

theorem c3_filename_without_extension_witness :
    containsDot "clip" = false
      ∧ (audioMultipartForm okFs
            { Model := "whisper-1", FileBytes := some [1, 2], FileName := some "clip" } okBuilder)
          = (some "FileName with correct extension is required while FileBytes is used", []) := by
  refine ⟨by decide, ?_⟩
  exact c3_filename_without_extension okFs okBuilder _ [1, 2] "clip" rfl rfl rfl (by decide)

/-- C9: bytes variant with no FileName at all (nil) fails with the same
validation error as a missing extension, before any writer call, and the nil
FileName is never dereferenced. -/
theorem c9_nil_filename (fsOpen : String → Except GoErr File)
    (b : FormBuilderOps) (req : AudioRequest) (data : List UInt8)
    (hp : req.FilePath = "") (hb : req.FileBytes = some data)
    (hn : req.FileName = none) :
    audioMultipartForm fsOpen req b
      = (some "FileName with correct extension is required while FileBytes is used", []) := by
  unfold audioMultipartForm
  rw [if_neg (by simp [hp]), hb, hn]

theorem c9_nil_filename_witness :
    ({ Model := "whisper-1", FileBytes := some [1, 2] } : AudioRequest).FileName = none
      ∧ (audioMultipartForm okFs { Model := "whisper-1", FileBytes := some [1, 2] } okBuilder)
          = (some "FileName with correct extension is required while FileBytes is used", []) := by
  refine ⟨rfl, ?_⟩
  exact c9_nil_filename okFs okBuilder _ [1, 2] rfl rfl rfl

/-- C4: with Temperature zero no `temperature` field is ever written; with a
nonzero Temperature, successful assembly writes a `temperature` field whose
value is the number formatted with exactly two decimal digits. -/
theorem c4_temperature_field (fsOpen : String → Except GoErr File)
    (b : FormBuilderOps) (req : AudioRequest) :
    (req.Temperature = 0 →
      ∀ v, FormEvent.wroteField "temperature" v ∉ (audioMultipartForm fsOpen req b).2)
    ∧ (req.Temperature ≠ 0 → (audioMultipartForm fsOpen req b).1 = none →
      FormEvent.wroteField "temperature" (fmtF2 req.Temperature)
          ∈ (audioMultipartForm fsOpen req b).2
        ∧ ∃ pre d1 d2, fmtF2 req.Temperature = pre ++ "." ++ String.mk [d1, d2]
            ∧ d1.isDigit = true ∧ d2.isDigit = true) := by
  constructor
  · intro h0 v hmem
    rcases mem_audioMultipartForm hmem with ⟨hp, h⟩ | ⟨hp, data, fn, hb, hn, h⟩
      | h | ⟨hc, h⟩ | ⟨hc, h⟩ | ⟨hc, h⟩ | ⟨hc, h⟩ | h <;>
      simp_all
  · intro hT hform
    have hT' : (req.Temperature != 0) = true := by simpa using hT
    refine ⟨?_, fmtF2_shape _⟩
    rcases audioMultipartForm_none_inv hform with ⟨hp, f, ho, hc⟩
      | ⟨hp, data, fn, hb, hn, hdot, hc⟩
    · have heq := audioMultipartForm_path_eq hp ho hc
      have hff : (audioFormFields b req
          [FormEvent.openedFile req.FilePath, FormEvent.createdFormFile "file" f]).1 = none := by
        rw [heq] at hform; exact hform
      rw [heq]
      dsimp only
      rw [audioFormFields_none hff]
      simp [hT']
    · have heq := @audioMultipartForm_bytes_eq fsOpen req b data fn hp hb hn hdot hc
      have hff : (audioFormFields b req
          [FormEvent.createdFormFileFromBytes "file" fn data]).1 = none := by
        rw [heq] at hform; exact hform
      rw [heq]
      rw [audioFormFields_none hff]
      simp [hT']

theorem c4_temperature_field_witness :
    FormEvent.wroteField "temperature" "0.00" ∉ (audioMultipartForm okFs reqT0 okBuilder).2
      ∧ FormEvent.wroteField "temperature" "0.50" ∈ (audioMultipartForm okFs reqT okBuilder).2 := by
  constructor
  · exact (c4_temperature_field okFs okBuilder reqT0).1 rfl "0.00"
  · have h := ((c4_temperature_field okFs okBuilder reqT).2 (by decide) (by decide)).1
    have he : fmtF2 reqT.Temperature = "0.50" := by decide
    rw [he] at h
    exact h

/-- C5: on successful assembly the form parts appear in the fixed order
`file`, `model`, then `prompt`, `response_format`, `temperature`, `language`,
each present exactly when its condition holds; in particular
`response_format` is omitted exactly when Format is unset. -/
theorem c5_field_order (fsOpen : String → Except GoErr File) (b : FormBuilderOps)
    (req : AudioRequest) (h : (audioMultipartForm fsOpen req b).1 = none) :
    formFieldNames (audioMultipartForm fsOpen req b).2
      = ["file", "model"]
        ++ (if req.Prompt != "" then ["prompt"] else [])
        ++ (if req.Format != "" then ["response_format"] else [])
        ++ (if req.Temperature != 0 then ["temperature"] else [])
        ++ (if req.Language != "" then ["language"] else []) := by
  rcases audioMultipartForm_none_inv h with ⟨hp, f, ho, hc⟩
    | ⟨hp, data, fn, hb, hn, hdot, hc⟩
  · have heq := audioMultipartForm_path_eq hp ho hc
    have hff : (audioFormFields b req
        [FormEvent.openedFile req.FilePath, FormEvent.createdFormFile "file" f]).1 = none := by
      rw [heq] at h; exact h
    rw [heq]
    dsimp only
    rw [audioFormFields_none hff]
    by_cases h1 : (req.Prompt != "") = true <;> by_cases h2 : (req.Format != "") = true <;>
      by_cases h3 : (req.Temperature != 0) = true <;>
      by_cases h4 : (req.Language != "") = true <;>
      simp [formFieldNames, List.filterMap_append, h1, h2, h3, h4]
  · have heq := @audioMultipartForm_bytes_eq fsOpen req b data fn hp hb hn hdot hc
    have hff : (audioFormFields b req
        [FormEvent.createdFormFileFromBytes "file" fn data]).1 = none := by
      rw [heq] at h; exact h
    rw [heq]
    rw [audioFormFields_none hff]
    by_cases h1 : (req.Prompt != "") = true <;> by_cases h2 : (req.Format != "") = true <;>
      by_cases h3 : (req.Temperature != 0) = true <;>
      by_cases h4 : (req.Language != "") = true <;>
      simp [formFieldNames, List.filterMap_append, h1, h2, h3, h4]

theorem c5_field_order_witness :
    (audioMultipartForm okFs reqC5 okBuilder).1 = none
      ∧ formFieldNames (audioMultipartForm okFs reqC5 okBuilder).2
        = ["file", "model", "prompt", "response_format", "temperature", "language"] := by
  refine ⟨by decide, ?_⟩
  rw [c5_field_order okFs okBuilder reqC5 (by decide)]
  decide

/-- C6: a failed assembly short-circuits: `callAudioAPI` returns the zero
`AudioResponse` with the error, no HTTP request is built or sent, and the
form was never finalized (no `builderClosed` event), so no partial form is
ever submitted. -/
theorem c6_failure_short_circuits (c : ClientEnv) (req : AudioRequest) (sfx : String)
    (e : GoErr) (h : (audioMultipartForm c.fsOpen req c.builder).1 = some e) :
    callAudioAPI c req sfx
        = { response := ⟨""⟩, err := some e
            formTrace := (audioMultipartForm c.fsOpen req c.builder).2
            httpRequestBuilt := false, httpRequestSent := false }
      ∧ FormEvent.builderClosed ∉ (audioMultipartForm c.fsOpen req c.builder).2 := by
  constructor
  · unfold callAudioAPI
    simp only [h]
  · intro hm
    rw [builderClosed_audioMultipartForm hm] at h
    exact Option.noConfusion h

theorem c6_failure_short_circuits_witness :
    (audioMultipartForm envC6.fsOpen reqT0 envC6.builder).1 = some "close failed"
      ∧ (callAudioAPI envC6 reqT0 "transcriptions").err = some "close failed"
      ∧ (callAudioAPI envC6 reqT0 "transcriptions").httpRequestSent = false
      ∧ FormEvent.builderClosed ∉ (audioMultipartForm envC6.fsOpen reqT0 envC6.builder).2 := by
  have h := c6_failure_short_circuits envC6 reqT0 "transcriptions" "close failed" (by decide)
  refine ⟨by decide, ?_, ?_, h.2⟩
  · rw [h.1]
  · rw [h.1]

/-- The request-independent fields of `audioFormFields` are the only ones it
reads, so clearing `FileBytes` and `FileName` does not change it. -/
theorem audioFormFields_irrel (b : FormBuilderOps) (req : AudioRequest)
    (acc : List FormEvent) :
    audioFormFields b { req with FileBytes := none, FileName := none } acc
      = audioFormFields b req acc := rfl

/-- C7: with both FilePath and FileBytes populated, the path-based source
silently takes precedence: the outcome equals that of the request with the
bytes variant cleared, no bytes-based file part is ever created, the file
part comes from the opened path, and no validation error is raised. -/
theorem c7_path_precedence (fsOpen : String → Except GoErr File) (b : FormBuilderOps)
    (req : AudioRequest) (data : List UInt8)
    (hp : req.FilePath ≠ "") (_hb : req.FileBytes = some data) :
    audioMultipartForm fsOpen req b
        = audioMultipartForm fsOpen { req with FileBytes := none, FileName := none } b
      ∧ (∀ nm fn d, FormEvent.createdFormFileFromBytes nm fn d
            ∉ (audioMultipartForm fsOpen req b).2)
      ∧ (∀ f, fsOpen req.FilePath = Except.ok f → b.createFormFile "file" f = none →
          FormEvent.createdFormFile "file" f ∈ (audioMultipartForm fsOpen req b).2) := by
  have hp' : (req.FilePath != "") = true := by simpa using hp
  refine ⟨?_, ?_, ?_⟩
  · unfold audioMultipartForm
    dsimp only
    rw [if_pos hp', if_pos hp']
    cases ho : fsOpen req.FilePath with
    | error e => rfl
    | ok f =>
      dsimp only
      rw [audioFormFields_irrel]
  · intro nm fn d hm
    rcases mem_audioMultipartForm hm with ⟨_, h⟩ | ⟨hpf, _⟩
      | h | ⟨_, h⟩ | ⟨_, h⟩ | ⟨_, h⟩ | ⟨_, h⟩ | h <;> simp_all
  · intro f ho hc
    have heq := audioMultipartForm_path_eq hp' ho hc
    rw [heq]
    dsimp only
    refine List.mem_append_left _ ?_
    exact audioFormFields_mem_acc (by simp)

theorem c7_path_precedence_witness :
    audioMultipartForm okFs reqC7 okBuilder
        = audioMultipartForm okFs { reqC7 with FileBytes := none, FileName := none } okBuilder
      ∧ FormEvent.createdFormFileFromBytes "file" "b.mp3" [9]
          ∉ (audioMultipartForm okFs reqC7 okBuilder).2
      ∧ FormEvent.createdFormFile "file" ⟨"a.wav"⟩
          ∈ (audioMultipartForm okFs reqC7 okBuilder).2 := by
  have h := c7_path_precedence okFs okBuilder reqC7 [9] (by decide) rfl
  exact ⟨h.1, h.2.1 "file" "b.mp3" [9], h.2.2 ⟨"a.wav"⟩ rfl rfl⟩

/-- C8: once the path-based file open succeeds, the handle is closed on every
exit path of the assembly step, whatever the builder operations do. -/
theorem c8_file_handle_closed (fsOpen : String → Except GoErr File) (b : FormBuilderOps)
    (req : AudioRequest) (f : File)
    (hp : req.FilePath ≠ "") (ho : fsOpen req.FilePath = Except.ok f) :
    FormEvent.closedFile req.FilePath ∈ (audioMultipartForm fsOpen req b).2 := by
  unfold audioMultipartForm
  rw [if_pos (by simpa using hp), ho]
  dsimp only
  exact List.mem_append_right _ (List.mem_singleton.mpr rfl)

theorem c8_file_handle_closed_witness :
    FormEvent.closedFile "a.wav" ∈ (audioMultipartForm okFs reqT0 failFileBuilder).2
      ∧ (audioMultipartForm okFs reqT0 failFileBuilder).1
          = some "creating form file: disk full" := by
  refine ⟨?_, by decide⟩
  exact c8_file_handle_closed okFs failFileBuilder reqT0 ⟨"a.wav"⟩ (by decide) rfl

/-- C10: the Format value is never validated: any non-empty string is written
verbatim as `response_format`, and any non-empty Format other than `json`
(such as `verbose_json`) turns off JSON decoding, the body being taken as
raw text. -/
theorem c10_format_not_validated (c : ClientEnv) (req : AudioRequest) (sfx : String)
    (hf : req.Format ≠ "") :
    ((audioMultipartForm c.fsOpen req c.builder).1 = none →
        FormEvent.wroteField "response_format" req.Format
          ∈ (audioMultipartForm c.fsOpen req c.builder).2)
      ∧ (req.Format ≠ AudioResponseFormatJSON →
        req.HasJSONResponse = false
          ∧ ((audioMultipartForm c.fsOpen req c.builder).1 = none →
              c.newRequestErr = none → c.transportErr = none →
              (callAudioAPI c req sfx).response.Text = c.responseBody
                ∧ (callAudioAPI c req sfx).err = none)) := by
  have hf' : (req.Format != "") = true := by simpa using hf
  constructor
  · intro hform
    rcases audioMultipartForm_none_inv hform with ⟨hp, f, ho, hc⟩
      | ⟨hp, data, fn, hb, hn, hdot, hc⟩
    · have heq := audioMultipartForm_path_eq hp ho hc
      have hff : (audioFormFields c.builder req
          [FormEvent.openedFile req.FilePath, FormEvent.createdFormFile "file" f]).1 = none := by
        rw [heq] at hform; exact hform
      rw [heq]
      dsimp only
      rw [audioFormFields_none hff]
      simp [hf']
    · have heq := @audioMultipartForm_bytes_eq c.fsOpen req c.builder data fn hp hb hn hdot hc
      have hff : (audioFormFields c.builder req
          [FormEvent.createdFormFileFromBytes "file" fn data]).1 = none := by
        rw [heq] at hform; exact hform
      rw [heq]
      rw [audioFormFields_none hff]
      simp [hf']
  · intro hj
    have hjr : req.HasJSONResponse = false := by
      have hj' : req.Format ≠ "json" := hj
      simp [AudioRequest.HasJSONResponse, hf, hj, hj']
    refine ⟨hjr, ?_⟩
    intro hform hreq ht
    unfold callAudioAPI sendRequestToTextField
    simp only [hform, hreq, ht, hjr]
    exact ⟨rfl, rfl⟩

theorem c10_format_not_validated_witness :
    FormEvent.wroteField "response_format" "verbose_json"
        ∈ (audioMultipartForm envC10.fsOpen reqC10 envC10.builder).2
      ∧ reqC10.HasJSONResponse = false
      ∧ (callAudioAPI envC10 reqC10 "transcriptions").response.Text = "plain text body" := by
  have h := c10_format_not_validated envC10 reqC10 "transcriptions" (by decide)
  exact ⟨h.1 (by decide), (h.2 (by decide)).1,
    ((h.2 (by decide)).2 (by decide) rfl rfl).1⟩

end Openai
